import Mathlib

/-!
Shallow embedding of the Shopify → Cin7 quoting webhook
(`src/api/webhooks/shopify/draft_orders/create.js`).

JavaScript numbers that survive a `Number(...)` coercion and a
`Number.isFinite` check are modelled as `ℚ`; a possibly-non-finite
coercion result (`NaN`, `±Infinity`) is modelled by `JNum.nonfinite`.
`Math.round` (half-up, toward +∞) coincides with Mathlib's `round`
(`round x = ⌊x + 1/2⌋`).
-/

namespace Cin7Spec

/-- Result of a JavaScript `Number(...)` coercion: either a finite
numeric value or a non-finite one (`NaN`, `±Infinity`). -/
inductive JNum where
  | nonfinite : JNum
  | num : ℚ → JNum
  deriving DecidableEq, Repr

/-- `toNumber(value, fallback = 0)` from the source: the numeric
coercion when finite, else the fallback. -/
def toNumber (v : JNum) (fallback : ℚ := 0) : ℚ :=
  match v with
  | .nonfinite => fallback
  | .num q => q

/-- `Math.round(x * 100) / 100`, the 2-decimal rounding used by
`convertInclusiveAmount`. -/
def round2 (q : ℚ) : ℚ := ((round (q * 100) : ℤ) : ℚ) / 100

/-- `convertInclusiveAmount(amount, taxRatePercent)` from the source:
divide a tax-inclusive amount by `1 + rate` and round to 2 decimals,
returning the coerced amount unchanged when the rate is non-finite or
`rateDecimal <= -1`. -/
def convertInclusiveAmount (amount taxRatePercent : JNum) : ℚ :=
  match taxRatePercent with
  | .nonfinite => toNumber amount
  | .num ratePercent =>
      let rateDecimal := ratePercent / 100
      if rateDecimal ≤ -1 then toNumber amount
      else round2 (toNumber amount / (1 + rateDecimal))

/-- `cin7TaxRate(value)`: a finite numeric becomes a percentage
(`value * 100`), anything else `undefined`. -/
def cin7TaxRate (v : JNum) : Option ℚ :=
  match v with
  | .nonfinite => none
  | .num q => some (q * 100)

/-- A Shopify tax line; `rate` is `null`/absent (`none`) or the result
of coercing the JSON value to a number. -/
structure TaxLine where
  rate : Option JNum
  deriving Repr

/-- `applied_discount` object; only the `amount` field is consumed by
the mapper (modelled post-coercion as a finite numeric when present). -/
structure AppliedDiscount where
  amount : Option ℚ
  deriving Repr

/-- A Shopify draft-order line item, restricted to the fields the
mapper reads. -/
structure LineItem where
  sku : Option String := none
  quantity : Option ℚ := none
  price : Option ℚ := none
  tax_lines : Option (List TaxLine) := none
  applied_discount : Option AppliedDiscount := none
  deriving Repr

/-- `shipping_line`: price and tax lines. -/
structure ShippingLine where
  price : Option ℚ := none
  tax_lines : Option (List TaxLine) := none
  deriving Repr

/-- An address object; only the `email` field matters to the claims. -/
structure Address where
  email : Option String := none
  deriving Repr

/-- `customer` object; only the `email` field matters to the claims. -/
structure Customer where
  email : Option String := none
  deriving Repr

/-- The draft order's `tags` value: a JSON array of strings, a
comma-separated string, or anything else. -/
inductive JTags where
  | strList : List String → JTags
  | str : String → JTags
  | other : JTags
  deriving Repr

/-- A Shopify draft order, restricted to the fields the claims
exercise. -/
structure Draft where
  email : Option String := none
  customer : Option Customer := none
  billing_address : Option Address := none
  shipping_address : Option Address := none
  taxes_included : Bool := false
  tax_lines : Option (List TaxLine) := none
  line_items : List LineItem := []
  shipping_line : Option ShippingLine := none
  applied_discount : Option AppliedDiscount := none
  tags : JTags := .other
  deriving Repr

/-- `extractRateFromLines(taxLines)`: first tax line whose `rate` is
non-null and coerces to a finite number; `undefined` otherwise (also
when the argument is not an array). -/
def extractRateFromLines (taxLines : Option (List TaxLine)) : Option ℚ :=
  match taxLines with
  | none => none
  | some lines =>
      lines.findSome? fun line =>
        match line.rate with
        | some (.num q) => some q
        | _ => none

/-- `taxRateFromLines(taxLines)`: the extracted rate converted to a
percentage via `cin7TaxRate`. -/
def taxRateFromLines (taxLines : Option (List TaxLine)) : Option ℚ :=
  match extractRateFromLines taxLines with
  | some rate => cin7TaxRate (.num rate)
  | none => none

/-- `resolveDefaultInclusiveTaxRate(draft)` with the configured
fallback percentage `fb` (`fallbackInclusiveTaxRate` in the source):
order-level tax lines, then the first line item carrying a rate, then
the shipping line's tax lines, then the fallback. -/
def resolveDefaultInclusiveTaxRate (fb : ℚ) (draft : Draft) : Option ℚ × String :=
  if !draft.taxes_included then (none, "exclusive")
  else
    match taxRateFromLines draft.tax_lines with
    | some q => (some q, "order")
    | none =>
        match draft.line_items.findSome? (fun item => taxRateFromLines item.tax_lines) with
        | some q => (some q, "line-item")
        | none =>
            match taxRateFromLines (draft.shipping_line.bind ShippingLine.tax_lines) with
            | some q => (some q, "freight")
            | none => (some fb, "fallback")

/-- `CIN7_TAX_STATUS` constant from the source. -/
def CIN7_TAX_STATUS : String := "Excl"

/-- `REQUIRED_DRAFT_TAG` constant from the source. -/
def REQUIRED_DRAFT_TAG : String := "qteedy"

/-- JavaScript truthiness of an optional string (`undefined`, `null`
and `""` are falsy). -/
def truthyStr : Option String → Bool
  | none => false
  | some s => s ≠ ""

/-- JavaScript `a || b` on optional strings. -/
def jsOrStr (a b : Option String) : Option String :=
  if truthyStr a then a else b

/-- JavaScript `String.prototype.trim` over the character list of a
string. -/
def jsTrim (s : List Char) : List Char :=
  ((s.dropWhile Char.isWhitespace).reverse.dropWhile Char.isWhitespace).reverse

/-- ASCII lowercasing of one character (`toLowerCase`; the tag values
compared here are ASCII). -/
def jsCharToLower (c : Char) : Char :=
  if 65 ≤ c.toNat ∧ c.toNat ≤ 90 then Char.ofNat (c.toNat + 32) else c

/-- `toLowerCase` over the character list of a string. -/
def jsToLower (s : List Char) : List Char :=
  s.map jsCharToLower

/-- JavaScript `split(",")` over the character list of a string. -/
def jsSplitComma : List Char → List (List Char)
  | [] => [[]]
  | c :: rest =>
      let r := jsSplitComma rest
      if c = ',' then [] :: r
      else
        match r with
        | [] => [[c]]
        | h :: t => (c :: h) :: t

/-- `parseTags(value)`: an array maps each entry through trimming; a
string splits on commas, trims, and drops empties; anything else is
empty. -/
def parseTags : JTags → List (List Char)
  | .strList l => l.map fun t => jsTrim t.data
  | .str s => ((jsSplitComma s.data).map jsTrim).filter (fun t => t ≠ [])
  | .other => []

/-- `draftHasTag(draft, tag)`: case-insensitive membership of the
trimmed tag among the draft's parsed tags (vacuously true for an
empty target). -/
def draftHasTag (draft : Draft) (tag : String) : Bool :=
  let target := jsToLower (jsTrim tag.data)
  if target.isEmpty then true
  else (parseTags draft.tags).any fun t => jsToLower t == target

/-- The per-line tax rate used by the mapper
(`sourceItemTaxRate` in `mapDraftOrderToCin7Quote`): the line's own
tax-line rate, else the resolved default, and `undefined` for
tax-exclusive drafts. -/
def itemTaxRate (fb : ℚ) (draft : Draft) (li : LineItem) : Option ℚ :=
  if draft.taxes_included then
    match taxRateFromLines li.tax_lines with
    | some q => some q
    | none => (resolveDefaultInclusiveTaxRate fb draft).1
  else none

/-- A mapped Cin7 quote line item (`lineItems` entries built by the
mapper). -/
structure CinLineItem where
  code : String
  qty : ℚ
  unitPrice : ℚ
  discount : ℚ
  taxRate : Option ℚ
  sort : ℕ
  deriving Repr

/-- The mapped Cin7 quote, restricted to the fields the claims
exercise. `Option` fields model the source's pruning of
`undefined`/`null` values. -/
structure Cin7Quote where
  memberEmail : Option String
  taxStatus : String
  discountTotal : ℚ
  freightTotal : Option ℚ
  freightTaxRate : Option ℚ
  taxRate : Option ℚ
  lineItems : List CinLineItem
  deriving Repr

/-- `mapDraftOrderToCin7Quote(draft)` with the configured fallback
percentage `fb`: the pricing/tax/email portion of the mapper. -/
def mapDraftOrderToCin7Quote (fb : ℚ) (draft : Draft) : Cin7Quote :=
  let cust := draft.customer.getD {}
  let ship := draft.shipping_address.getD {}
  let bill := draft.billing_address.getD {}
  let primaryEmail :=
    jsOrStr draft.email (jsOrStr cust.email (jsOrStr bill.email (jsOrStr ship.email none)))
  let sourceIsTaxInclusive := draft.taxes_included
  let isTaxInclusive := sourceIsTaxInclusive && (CIN7_TAX_STATUS == "Incl")
  let shouldConvertToExclusive := sourceIsTaxInclusive && (CIN7_TAX_STATUS == "Excl")
  let defaultTaxRate := (resolveDefaultInclusiveTaxRate fb draft).1
  let shippingTaxRate :=
    if sourceIsTaxInclusive then
      match taxRateFromLines (draft.shipping_line.bind ShippingLine.tax_lines) with
      | some q => some q
      | none => defaultTaxRate
    else none
  let freightTaxRate := if isTaxInclusive then shippingTaxRate else none
  let quoteLevelTaxRate := if isTaxInclusive then defaultTaxRate else none
  let orderDiscountRaw := (draft.applied_discount.bind AppliedDiscount.amount).getD 0
  let discountTotal :=
    if shouldConvertToExclusive && decide (orderDiscountRaw ≠ 0) && defaultTaxRate.isSome then
      convertInclusiveAmount (.num orderDiscountRaw) (.num (defaultTaxRate.getD 0))
    else orderDiscountRaw
  let freightSourceAmount := draft.shipping_line.bind ShippingLine.price
  let freightTotal :=
    match freightSourceAmount with
    | none => none
    | some f =>
        some (if shouldConvertToExclusive && shippingTaxRate.isSome then
                convertInclusiveAmount (.num f) (.num (shippingTaxRate.getD 0))
              else f)
  let lineItems :=
    draft.line_items.enum.map fun p =>
      let idx := p.1
      let li := p.2
      let sourceItemTaxRate := itemTaxRate fb draft li
      let priceRaw := li.price.getD 0
      let discountRaw := (li.applied_discount.bind AppliedDiscount.amount).getD 0
      let unitPrice :=
        if shouldConvertToExclusive && sourceItemTaxRate.isSome then
          convertInclusiveAmount (.num priceRaw) (.num (sourceItemTaxRate.getD 0))
        else priceRaw
      let discount :=
        if shouldConvertToExclusive && decide (discountRaw ≠ 0) && sourceItemTaxRate.isSome then
          convertInclusiveAmount (.num discountRaw) (.num (sourceItemTaxRate.getD 0))
        else discountRaw
      { code := li.sku.getD ""
        qty := li.quantity.getD 0
        unitPrice := unitPrice
        discount := discount
        taxRate := if isTaxInclusive then sourceItemTaxRate else none
        sort := idx + 1 }
  { memberEmail := primaryEmail
    taxStatus := CIN7_TAX_STATUS
    discountTotal := discountTotal
    freightTotal := freightTotal
    freightTaxRate := freightTaxRate
    taxRate := quoteLevelTaxRate
    lineItems := lineItems }

/-- Post-verification portion of the webhook handler: tag gate, email
precondition, then the two outbound `cin7Request` calls
(contact lookup, then quote creation). Returns the HTTP status and the
list of downstream Cin7 requests issued; `postFails` abstracts the
quote-creation call rejecting after its internal retries. -/
def handlerAfterVerify (fb : ℚ) (draft : Draft) (postFails : Bool) : ℕ × List String :=
  if !draftHasTag draft REQUIRED_DRAFT_TAG then (200, [])
  else
    let quote := mapDraftOrderToCin7Quote fb draft
    match quote.memberEmail with
    | none => (200, [])
    | some _ =>
        (if postFails then 502 else 200, ["contact-lookup", "create-quote"])

/-! ## Outbound dispatch queue (rate limiter) -/

/-- `CIN7_RATE_LIMITS` from the source. -/
def perSecondLimit : ℕ := 3

/-- `CIN7_RATE_LIMITS` from the source. -/
def perMinuteLimit : ℕ := 60

/-- `pruneCin7Recent(now)`: shift entries off the front while older
than the 60-second window. -/
def pruneCin7Recent (recent : List ℤ) (now : ℤ) : List ℤ :=
  recent.dropWhile fun t => decide (now - t > 60000)

/-- `cin7DelayUntilAllowed(now)`: prune, then compute the minimum wait
so that dispatching now keeps the trailing 1-second count below 3 and
the trailing 60-second count below 60. Returns the delay together with
the pruned timestamp log (the source mutates the log in place). -/
def cin7DelayUntilAllowed (recent : List ℤ) (now : ℤ) : ℤ × List ℤ :=
  let pruned := pruneCin7Recent recent now
  let secWindow := pruned.filter fun t => decide (t > now - 1000)
  let minuteWindow := pruned.filter fun t => decide (t > now - 60000)
  let d1 : ℤ :=
    if secWindow.length ≥ perSecondLimit then
      max 0 (1000 - (now - secWindow.headI))
    else 0
  let d2 : ℤ :=
    if minuteWindow.length ≥ perMinuteLimit then
      max d1 (60000 - (now - minuteWindow.headI))
    else d1
  (d2, pruned)

/-- State of the dispatch loop: the full (ghost) history of dispatch
timestamps, the mutable `cin7RecentRequests` log, the queue length,
and the current clock. -/
structure QState where
  history : List ℤ
  recent : List ℤ
  queueLen : ℕ
  time : ℤ
  deriving Repr

/-- One step of `runCin7Queue`/`scheduleCin7Request`: time passes
(sleeping on a positive delay, awaiting a task, or idling), a producer
enqueues, or — only when `cin7DelayUntilAllowed` re-evaluated at the
current instant returns zero — the head task is dispatched and its
timestamp recorded. -/
inductive QStep : QState → QState → Prop
  | tick (s : QState) (d : ℤ) (hd : 0 ≤ d) :
      QStep s ⟨s.history, s.recent, s.queueLen, s.time + d⟩
  | enqueue (s : QState) :
      QStep s ⟨s.history, s.recent, s.queueLen + 1, s.time⟩
  | dispatch (s : QState) (hq : 0 < s.queueLen)
      (hz : (cin7DelayUntilAllowed s.recent s.time).1 = 0) :
      QStep s ⟨s.history ++ [s.time],
               (cin7DelayUntilAllowed s.recent s.time).2 ++ [s.time],
               s.queueLen - 1, s.time⟩

/-- Initial dispatch-queue state: both timestamp logs empty. -/
def initQState (queueLen : ℕ) (t0 : ℤ) : QState :=
  ⟨[], [], queueLen, t0⟩

/-- Number of timestamps of `l` lying in the trailing window `(T - w, T]`. -/
def winCount (l : List ℤ) (T w : ℤ) : ℕ :=
  l.countP fun t => decide (T - w < t ∧ t ≤ T)

/-! ## Retry loop (`cin7Request`) -/

/-- An axios-style rejection: optional HTTP status
(`err.response?.status`) and optional numeric `Retry-After` header
value in seconds. -/
structure Cin7Err where
  status : Option ℤ := none
  retryAfterSec : Option ℚ := none
  deriving DecidableEq, Repr

/-- `maxAttempts` from `cin7Request`. -/
def maxAttempts : ℕ := 4

/-- Whether a failure status is retried: `status === 429 || status >= 500`
(`undefined` comparisons are false). -/
def retryableStatus : Option ℤ → Bool
  | none => false
  | some s => decide (s = 429 ∨ 500 ≤ s)

/-- Backoff before the next attempt: a numeric `Retry-After` header
(seconds → ms) wins; otherwise `min(5000, 500 * attempt + jitter)`
where `jitter = Math.floor(Math.random() * 250)` is supplied as an
input. -/
def backoffMs (err : Cin7Err) (attempt : ℕ) (jitter : ℕ) : ℚ :=
  match err.retryAfterSec with
  | some s => s * 1000
  | none => min 5000 (500 * (attempt : ℚ) + (jitter : ℚ))

/-- The `while (attempt < maxAttempts)` loop of `cin7Request`.
`results k` is the outcome of the `k`-th (1-based) attempt and
`jit k` its jitter draw. Returns the final outcome, the number of
attempts made, and the list of backoff sleeps performed. Fuel is
`maxAttempts - attempt`, so the loop structure matches the source. -/
def cin7Go (results : ℕ → Except Cin7Err Unit) (jit : ℕ → ℕ) :
    ℕ → ℕ → List ℚ → Except Cin7Err Unit × ℕ × List ℚ
  | 0, attempt, sleeps => (.error {}, attempt, sleeps)
  | fuel + 1, attempt, sleeps =>
      let a := attempt + 1
      match results a with
      | .ok v => (.ok v, a, sleeps)
      | .error err =>
          let backoff := backoffMs err a (jit a)
          if retryableStatus err.status && decide (a < maxAttempts) then
            cin7Go results jit fuel a (sleeps ++ [backoff])
          else (.error err, a, sleeps)

/-- `cin7Request`: run the retry loop from attempt 0 with fuel
`maxAttempts`. -/
def cin7Request (results : ℕ → Except Cin7Err Unit) (jit : ℕ → ℕ) :
    Except Cin7Err Unit × ℕ × List ℚ :=
  cin7Go results jit maxAttempts 0 []

/-! ## Signature verification -/

/-- Byte-wise equality folded over the whole zipped pair of buffers,
mirroring the non-short-circuiting comparison of
`crypto.timingSafeEqual` (callable only on equal-length buffers). -/
def bytesEqAll (a b : List ℕ) : Bool :=
  ((List.zipWith (fun x y => x == y) a b).foldl (fun acc r => acc && r) true)

/-- `timingSafeEqual(a, b)` from the source: length check, then the
constant-time byte comparison. -/
def timingSafeEqual (a b : List ℕ) : Bool :=
  (a.length == b.length) && bytesEqAll a b

/-- `verifyShopifyHmac(rawBody, headers)` with the HMAC-SHA256-base64
digest abstracted as `digest`: a missing (or empty, hence falsy)
header fails closed; otherwise compare the computed digest of the raw
body with the claimed signature. -/
def verifyShopifyHmac (digest : List ℕ → List ℕ) (rawBody : List ℕ)
    (header : Option (List ℕ)) : Bool :=
  match header with
  | none => false
  | some received =>
      if received.isEmpty then false
      else timingSafeEqual (digest rawBody) received

/-- Inductive invariant of the dispatch loop: history timestamps never
exceed the clock, the pruned log is a suffix of the history whose
dropped prefix is older than the minute window, and every trailing
window respects the limits. -/
def QInv (s : QState) : Prop :=
  (∀ t ∈ s.history, t ≤ s.time) ∧
  (∃ old, s.history = old ++ s.recent ∧ ∀ t ∈ old, t ≤ s.time - 60000) ∧
  (∀ T : ℤ, winCount s.history T 1000 ≤ 3 ∧ winCount s.history T 60000 ≤ 60)

/-! ## Concrete inputs used by the claim theorems -/

/-- Line item priced 110.00 with a 10% line-level tax rate. -/
def line110 : LineItem :=
  { price := some 110, tax_lines := some [⟨some (.num (1/10))⟩] }

/-- Tax-inclusive draft with one line at 110.00 carrying a 10%
line-level tax rate (claim C6's scenario). -/
def draft110 : Draft :=
  { email := some "a@b.c"
    taxes_included := true
    tags := .str "qteedy"
    line_items := [line110] }

/-- Line item without tax lines of its own. -/
def lineNoRate : LineItem := { price := some 120 }

/-- Tax-inclusive draft mixing present/absent rate sources: the first
line has no rate, the second carries 20%, the order level has none,
and the shipping line carries 5%. -/
def draftMixed : Draft :=
  { email := some "a@b.c"
    taxes_included := true
    tags := .str "qteedy"
    line_items := [lineNoRate, { price := some 60, tax_lines := some [⟨some (.num (1/5))⟩] }]
    shipping_line := some { price := some 21, tax_lines := some [⟨some (.num (1/20))⟩] } }

/-- Draft carrying other tags but not the required one. -/
def draftNoTag : Draft := { draft110 with tags := .str "vip,retail" }

/-- Tagged, tax-inclusive draft with no email anywhere. -/
def draftTagNoEmail : Draft :=
  { taxes_included := true, tags := .str "qteedy", line_items := [line110] }

/-- Tagged draft with no top-level or customer email but an email on
the billing address. -/
def draftBillEmail : Draft :=
  { draftTagNoEmail with billing_address := some { email := some "bill@x" } }

/-- Modelled from the spec's claimed precedence (claim C3): the rate
converting a line's inclusive amount is the line-level rate, else the
order-level rate, else the freight-level rate, else the configured
fallback. This follows the spec's words, for comparison with
`itemTaxRate`, which is translated from the source. -/
def specClaimedItemRate (fb : ℚ) (draft : Draft) (li : LineItem) : Option ℚ :=
  if draft.taxes_included then
    match taxRateFromLines li.tax_lines with
    | some q => some q
    | none =>
        match taxRateFromLines draft.tax_lines with
        | some q => some q
        | none =>
            match taxRateFromLines (draft.shipping_line.bind ShippingLine.tax_lines) with
            | some q => some q
            | none => some fb
  else none

/-! ## Helper lemmas -/

theorem foldl_and (b : Bool) (l : List Bool) :
    l.foldl (fun acc r => acc && r) b = (b && l.all id) := by
  induction l generalizing b with
  | nil => simp
  | cons x xs ih => simp [List.foldl_cons, ih, Bool.and_assoc]

theorem bytesEqAll_eq_all (a b : List ℕ) :
    bytesEqAll a b = (List.zipWith (fun x y => x == y) a b).all id := by
  simp [bytesEqAll, foldl_and]

/-- The source's `timingSafeEqual` decides buffer equality. -/
theorem timingSafeEqual_eq_true_iff (a b : List ℕ) :
    timingSafeEqual a b = true ↔ a = b := by
  induction a generalizing b with
  | nil => cases b <;> simp [timingSafeEqual, bytesEqAll_eq_all]
  | cons x xs ih =>
      cases b with
      | nil => simp [timingSafeEqual]
      | cons y ys =>
          simp only [timingSafeEqual, bytesEqAll_eq_all] at ih ⊢
          simp only [List.length_cons, List.zipWith_cons_cons, List.all_cons, id] at ih ⊢
          constructor
          · intro h
            rw [Bool.and_eq_true, Bool.and_eq_true] at h
            have hlen := h.1
            have hxy := h.2.1
            have hall := h.2.2
            have hlen' : xs.length = ys.length := by simpa using hlen
            have hxy' : x = y := by simpa using hxy
            have hxs : xs = ys := (ih ys).mp (by
              rw [Bool.and_eq_true]
              exact ⟨by simpa using hlen', hall⟩)
            rw [hxy', hxs]
          · intro h
            cases h
            have hx := (ih xs).mpr rfl
            rw [Bool.and_eq_true] at hx
            simp [hx.2]

/-- The retry loop only ever appends to its sleep log. -/
theorem cin7Go_sleeps_extends (results : ℕ → Except Cin7Err Unit) (jit : ℕ → ℕ) :
    ∀ fuel attempt sleeps,
      ∃ rest, (cin7Go results jit fuel attempt sleeps).2.2 = sleeps ++ rest := by
  intro fuel
  induction fuel with
  | zero => intro attempt sleeps; exact ⟨[], by simp [cin7Go]⟩
  | succ n ih =>
      intro attempt sleeps
      simp only [cin7Go]
      cases hres : results (attempt + 1) with
      | ok v => exact ⟨[], by simp⟩
      | error err =>
          by_cases hc : (retryableStatus err.status && decide (attempt + 1 < maxAttempts)) = true
          · obtain ⟨rest, hr⟩ :=
              ih (attempt + 1) (sleeps ++ [backoffMs err (attempt + 1) (jit (attempt + 1))])
            refine ⟨[backoffMs err (attempt + 1) (jit (attempt + 1))] ++ rest, ?_⟩
            simp only [hc, if_true]
            rw [hr, List.append_assoc]
          · refine ⟨[], ?_⟩
            simp [hc]

/-- When the computed delay is zero, the pruned log holds fewer than 3
timestamps in the trailing second and fewer than 60 in the trailing
minute. -/
theorem delay_zero_counts (recent : List ℤ) (now : ℤ)
    (h : (cin7DelayUntilAllowed recent now).1 = 0) :
    ((pruneCin7Recent recent now).filter (fun t => decide (t > now - 1000))).length < 3 ∧
    ((pruneCin7Recent recent now).filter (fun t => decide (t > now - 60000))).length < 60 := by
  set pruned := pruneCin7Recent recent now with hpruned
  set sw := pruned.filter (fun t => decide (t > now - 1000)) with hsw
  set mw := pruned.filter (fun t => decide (t > now - 60000)) with hmw
  have hd : (cin7DelayUntilAllowed recent now).1 =
      (if mw.length ≥ 60 then
        max (if sw.length ≥ 3 then max 0 (1000 - (now - sw.headI)) else 0)
          (60000 - (now - mw.headI))
      else (if sw.length ≥ 3 then max 0 (1000 - (now - sw.headI)) else 0)) := rfl
  rw [hd] at h
  constructor
  · by_contra h3
    have hsw3 : sw.length ≥ 3 := Nat.le_of_not_lt h3
    have hne : sw ≠ [] := by
      intro he
      rw [he] at hsw3
      simp at hsw3
    obtain ⟨a, rest, hcons⟩ := List.exists_cons_of_ne_nil hne
    have ha : a ∈ sw := by rw [hcons]; exact List.mem_cons_self a rest
    have hpa : now - 1000 < a := by
      rw [hsw] at ha
      exact of_decide_eq_true (List.mem_filter.mp ha).2
    have hheadI : sw.headI = a := by rw [hcons]; rfl
    have hd1pos : (0 : ℤ) < max 0 (1000 - (now - sw.headI)) := by
      rw [hheadI]
      exact lt_max_of_lt_right (by omega)
    rw [if_pos hsw3] at h
    by_cases hm : mw.length ≥ 60
    · rw [if_pos hm] at h
      have hc := le_max_left (max 0 (1000 - (now - sw.headI))) (60000 - (now - mw.headI))
      rw [h] at hc
      linarith
    · rw [if_neg hm] at h
      rw [h] at hd1pos
      exact absurd hd1pos (lt_irrefl 0)
  · by_contra h60
    have hmw60 : mw.length ≥ 60 := Nat.le_of_not_lt h60
    have hne : mw ≠ [] := by
      intro he
      rw [he] at hmw60
      simp at hmw60
    obtain ⟨b, rest, hcons⟩ := List.exists_cons_of_ne_nil hne
    have hb : b ∈ mw := by rw [hcons]; exact List.mem_cons_self b rest
    have hpb : now - 60000 < b := by
      rw [hmw] at hb
      exact of_decide_eq_true (List.mem_filter.mp hb).2
    have hheadI : mw.headI = b := by rw [hcons]; rfl
    rw [if_pos hmw60] at h
    have hc := le_max_right (if sw.length ≥ 3 then max 0 (1000 - (now - sw.headI)) else 0)
      (60000 - (now - mw.headI))
    rw [h] at hc
    rw [hheadI] at hc
    linarith


/-- Appending a dispatch at time `τ` keeps every trailing window of
width `w ≤ 60000` within its limit, given the limiter's guard on the
pruned log. -/
theorem dispatch_count_le (history old recent : List ℤ) (τ T w : ℤ) (limit : ℕ)
    (hw0 : 0 < w) (hw : w ≤ 60000)
    (hle : ∀ t ∈ history, t ≤ τ)
    (hsplit : history = old ++ recent)
    (hold : ∀ t ∈ old, t ≤ τ - 60000)
    (hwinT : winCount history T w ≤ limit)
    (hfil : ((pruneCin7Recent recent τ).filter (fun t => decide (t > τ - w))).length < limit) :
    winCount (history ++ [τ]) T w ≤ limit := by
  simp only [winCount] at *
  rw [List.countP_append]
  by_cases hT : T - w < τ ∧ τ ≤ T
  · have hτ1 : ([τ] : List ℤ).countP (fun t => decide (T - w < t ∧ t ≤ T)) = 1 := by
      simp [List.countP_cons, hT]
    rw [hτ1]
    have hmono : history.countP (fun t => decide (T - w < t ∧ t ≤ T)) ≤
        history.countP (fun t => decide (τ - w < t ∧ t ≤ τ)) := by
      apply List.countP_mono_left
      intro a hamem hpa
      have h1 := of_decide_eq_true hpa
      have h2 := hle a hamem
      exact decide_eq_true (by omega)
    have hsplitc : history.countP (fun t => decide (τ - w < t ∧ t ≤ τ)) =
        old.countP (fun t => decide (τ - w < t ∧ t ≤ τ)) +
        recent.countP (fun t => decide (τ - w < t ∧ t ≤ τ)) := by
      rw [hsplit, List.countP_append]
    have hzero : old.countP (fun t => decide (τ - w < t ∧ t ≤ τ)) = 0 := by
      apply List.countP_eq_zero.mpr
      intro a ha hpa
      have h1 := of_decide_eq_true hpa
      have h2 := hold a ha
      omega
    have hsplitr : recent.countP (fun t => decide (τ - w < t ∧ t ≤ τ)) =
        (recent.takeWhile (fun t => decide (τ - t > 60000))).countP
          (fun t => decide (τ - w < t ∧ t ≤ τ)) +
        (recent.dropWhile (fun t => decide (τ - t > 60000))).countP
          (fun t => decide (τ - w < t ∧ t ≤ τ)) := by
      conv_lhs =>
        rw [← List.takeWhile_append_dropWhile (fun t => decide (τ - t > 60000)) recent]
      rw [List.countP_append]
    have hdropzero : (recent.takeWhile (fun t => decide (τ - t > 60000))).countP
        (fun t => decide (τ - w < t ∧ t ≤ τ)) = 0 := by
      apply List.countP_eq_zero.mpr
      intro a ha hpa
      have h1 := of_decide_eq_true hpa
      have h2 : τ - a > 60000 := by simpa using List.mem_takeWhile_imp ha
      omega
    have hprune : (recent.dropWhile (fun t => decide (τ - t > 60000))).countP
        (fun t => decide (τ - w < t ∧ t ≤ τ)) ≤
        ((pruneCin7Recent recent τ).filter (fun t => decide (t > τ - w))).length := by
      rw [← List.countP_eq_length_filter]
      apply List.countP_mono_left
      intro a _ hpa
      have h1 := of_decide_eq_true hpa
      exact decide_eq_true (by omega)
    omega
  · have hdec : (decide (T - w < τ ∧ τ ≤ T)) = false := by exact decide_eq_false hT
    have hτ0 : ([τ] : List ℤ).countP (fun t => decide (T - w < t ∧ t ≤ T)) = 0 := by
      simp only [List.countP_cons, List.countP_nil, hdec]
      norm_num
    rw [hτ0]
    omega


/-- The invariant holds initially. -/
theorem QInv_init (q : ℕ) (t0 : ℤ) : QInv (initQState q t0) := by
  refine ⟨?_, ⟨[], rfl, ?_⟩, ?_⟩ <;> simp [initQState, winCount]

/-- Every step of the dispatch loop preserves the invariant. -/
theorem QInv_step {s s' : QState} (hs : QInv s) (h : QStep s s') : QInv s' := by
  obtain ⟨hle, ⟨old, hsplit, hold⟩, hwin⟩ := hs
  cases h with
  | tick d hd =>
      refine ⟨?_, ⟨old, hsplit, ?_⟩, hwin⟩
      · intro t ht
        have h1 := hle t ht
        have hgoal : t ≤ s.time + d := by omega
        exact hgoal
      · intro t ht
        have h1 := hold t ht
        have hgoal : t ≤ s.time + d - 60000 := by omega
        exact hgoal
  | enqueue =>
      exact ⟨hle, ⟨old, hsplit, hold⟩, hwin⟩
  | dispatch hq hz =>
      have hcounts := delay_zero_counts s.recent s.time hz
      refine ⟨?_, ?_, ?_⟩
      · intro t ht
        rcases List.mem_append.mp ht with h1 | h1
        · exact hle t h1
        · exact le_of_eq (List.mem_singleton.mp h1)
      · refine ⟨old ++ s.recent.takeWhile (fun t => decide (s.time - t > 60000)), ?_, ?_⟩
        · show s.history ++ [s.time] =
            (old ++ s.recent.takeWhile (fun t => decide (s.time - t > 60000))) ++
            ((cin7DelayUntilAllowed s.recent s.time).2 ++ [s.time])
          have hsnd : (cin7DelayUntilAllowed s.recent s.time).2 =
              s.recent.dropWhile (fun t => decide (s.time - t > 60000)) := rfl
          rw [hsnd, hsplit]
          conv_lhs => rw [← List.takeWhile_append_dropWhile
            (fun t => decide (s.time - t > 60000)) s.recent]
          simp only [List.append_assoc]
        · intro t ht
          rcases List.mem_append.mp ht with h1 | h1
          · exact hold t h1
          · have h2 : s.time - t > 60000 := by simpa using List.mem_takeWhile_imp h1
            have hgoal : t ≤ s.time - 60000 := by omega
            exact hgoal
      · intro T
        exact ⟨dispatch_count_le s.history old s.recent s.time T 1000 3
            (by norm_num) (by norm_num) hle hsplit hold (hwin T).1 hcounts.1,
          dispatch_count_le s.history old s.recent s.time T 60000 60
            (by norm_num) (by norm_num) hle hsplit hold (hwin T).2 hcounts.2⟩


/-! ## Claim theorems -/

/-- C6: a tax-inclusive draft with one line item priced 110.00 and a
10% line-level tax rate, mapped with target tax status "Excl",
produces a line item with `unitPrice = 100.00`. -/
theorem c6_line_unit_price :
    (mapDraftOrderToCin7Quote 10 draft110).lineItems.map CinLineItem.unitPrice = [100] ∧
    (mapDraftOrderToCin7Quote 10 draft110).taxStatus = "Excl" := by
  refine ⟨?_, rfl⟩
  simp only [mapDraftOrderToCin7Quote, draft110, line110, itemTaxRate,
    resolveDefaultInclusiveTaxRate, taxRateFromLines, extractRateFromLines, cin7TaxRate,
    convertInclusiveAmount, toNumber, round2, jsOrStr, truthyStr, CIN7_TAX_STATUS, List.enum,
    List.findSome?, Option.getD, Option.bind, List.map]
  norm_num [round_eq]

/-- C10: `convertInclusiveAmount` never divides: when the tax-rate
percent is non-finite or at most −100 it returns the numeric coercion
of the amount unchanged, and a non-numeric amount coerces to 0. -/
theorem c10_convert_total (amount p : JNum)
    (h : p = JNum.nonfinite ∨ ∃ q : ℚ, p = JNum.num q ∧ q ≤ -100) :
    convertInclusiveAmount amount p = toNumber amount ∧
    toNumber JNum.nonfinite = 0 := by
  refine ⟨?_, rfl⟩
  rcases h with h | ⟨q, rfl, hq⟩
  · subst h; rfl
  · show (if q / 100 ≤ -1 then toNumber amount
          else round2 (toNumber amount / (1 + q / 100))) = toNumber amount
    rw [if_pos (by linarith)]

/-- Witness for C10 at a concrete non-numeric amount and rate −150. -/
theorem c10_convert_total_witness :
    convertInclusiveAmount JNum.nonfinite (JNum.num (-150)) = toNumber JNum.nonfinite ∧
    toNumber JNum.nonfinite = 0 :=
  c10_convert_total JNum.nonfinite (JNum.num (-150))
    (Or.inr ⟨-150, rfl, by norm_num⟩)

/-- C5 fails as stated: at inclusive amount 0.02 and resolved rate
400%, the conversion itself matches `round(inclusive/(1+rate), 2)`,
but re-applying `round(exclusive * (1+rate), 2)` lands 0.02 away from
the original — more than one rounding unit. -/
theorem c5_roundtrip_counterexample :
    convertInclusiveAmount (JNum.num (1/50)) (JNum.num 400) =
      round2 ((1/50 : ℚ) / (1 + 400/100)) ∧
    ¬ |round2 (round2 ((1/50 : ℚ) / (1 + 400/100)) * (1 + 400/100)) - 1/50| ≤ 1/100 := by
  constructor
  · simp only [convertInclusiveAmount, toNumber]
    norm_num
  · norm_num [round2, round_eq]
    rw [abs_of_pos (by norm_num : (0:ℚ) < 1/50)]
    norm_num

/-- C5 (amended): the conversion equals `round(inclusive/(1+rate), 2)`
for every rate above −100 (as the code guards), and the round-trip
stays within one rounding unit provided the inclusive amount is a
whole number of cents and the rate percent lies in [0, 100]. -/
theorem c5_roundtrip_amended (n : ℤ) (p q : ℚ)
    (h0 : 0 ≤ p) (h1 : p ≤ 100) (hq : -100 < q) :
    convertInclusiveAmount (JNum.num ((n : ℚ)/100)) (JNum.num q) =
      round2 ((n : ℚ)/100 / (1 + q/100)) ∧
    |round2 (round2 ((n : ℚ)/100 / (1 + p/100)) * (1 + p/100)) - (n : ℚ)/100| ≤ 1/100 := by
  constructor
  · show (if q / 100 ≤ -1 then toNumber (JNum.num ((n : ℚ)/100))
          else round2 (toNumber (JNum.num ((n : ℚ)/100)) / (1 + q / 100))) =
        round2 ((n : ℚ)/100 / (1 + q/100))
    rw [if_neg (by intro hc; linarith)]
    rfl
  · have hpos : (0:ℚ) < 1 + p / 100 := by linarith
    have h1d : (1 : ℚ) + p / 100 ≠ 0 := ne_of_gt hpos
    set d : ℚ := p / 100 with hdDef
    have hd1 : d ≤ 1 := by rw [hdDef]; linarith
    set a : ℚ := (n : ℚ) / 100 with haDef
    set u : ℚ := a / (1 + d) with huDef
    set k : ℤ := round (u * 100) with hkDef
    have hk : |(k : ℚ) - u * 100| ≤ 1 / 2 := by
      have h := abs_sub_round (u * 100)
      rwa [abs_sub_comm] at h
    set m : ℤ := round ((k : ℚ) * (1 + d)) with hmDef
    have hm : |(m : ℚ) - (k : ℚ) * (1 + d)| ≤ 1 / 2 := by
      have h := abs_sub_round ((k : ℚ) * (1 + d))
      rwa [abs_sub_comm] at h
    have hkey : u * 100 * (1 + d) = (n : ℚ) := by
      rw [huDef, haDef]
      field_simp
      ring
    have hgoalEq : round2 (round2 u * (1 + d)) = (m : ℚ) / 100 := by
      have hre : round2 u * (1 + d) * 100 = (k : ℚ) * (1 + d) := by
        show ((k : ℚ) / 100) * (1 + d) * 100 = (k : ℚ) * (1 + d)
        ring
      show ((round (round2 u * (1 + d) * 100) : ℤ) : ℚ) / 100 = (m : ℚ) / 100
      rw [hre, ← hmDef]
    have hmain : |(m : ℚ) - (n : ℚ)| ≤ 3 / 2 := by
      have e1 : (m : ℚ) - (n : ℚ) =
          ((m : ℚ) - (k : ℚ) * (1 + d)) + ((k : ℚ) - u * 100) * (1 + d) := by
        rw [← hkey]; ring
      have e2 : |((k : ℚ) - u * 100) * (1 + d)| ≤ 1 := by
        rw [abs_mul, abs_of_pos hpos]
        have h3 : |(k : ℚ) - u * 100| * (1 + d) ≤ (1 / 2) * (1 + d) :=
          mul_le_mul_of_nonneg_right hk (le_of_lt hpos)
        have h4 : (1 / 2 : ℚ) * (1 + d) ≤ 1 := by linarith
        linarith
      calc |(m : ℚ) - (n : ℚ)|
          ≤ |(m : ℚ) - (k : ℚ) * (1 + d)| + |((k : ℚ) - u * 100) * (1 + d)| := by
            rw [e1]; exact abs_add _ _
        _ ≤ 3 / 2 := by linarith
    have hcast : ((|m - n| : ℤ) : ℚ) = |(m : ℚ) - (n : ℚ)| := by
      push_cast
      rfl
    have hint : |m - n| ≤ 1 := by
      have h5 : ((|m - n| : ℤ) : ℚ) < ((2 : ℤ) : ℚ) := by
        rw [hcast]
        calc |(m : ℚ) - (n : ℚ)| ≤ 3 / 2 := hmain
          _ < ((2 : ℤ) : ℚ) := by norm_num
      have h6 : |m - n| < 2 := by exact_mod_cast h5
      omega
    rw [hgoalEq]
    have h7 : |(m : ℚ) - (n : ℚ)| ≤ 1 := by
      rw [← hcast]
      exact_mod_cast hint
    have h8 : (m : ℚ) / 100 - a = ((m : ℚ) - (n : ℚ)) / 100 := by
      rw [haDef]; ring
    rw [h8, abs_div, abs_of_pos (by norm_num : (0:ℚ) < 100)]
    linarith

/-- Witness for C5's amended theorem at amount 1.10 (110 cents) and
rate 10%. -/
theorem c5_roundtrip_amended_witness :
    convertInclusiveAmount (JNum.num ((110 : ℤ) / 100 : ℚ)) (JNum.num 10) =
      round2 (((110 : ℤ) : ℚ)/100 / (1 + 10/100)) ∧
    |round2 (round2 (((110 : ℤ) : ℚ)/100 / (1 + 10/100)) * (1 + 10/100)) -
      ((110 : ℤ) : ℚ)/100| ≤ 1/100 := by
  have h := c5_roundtrip_amended 110 10 10 (by norm_num) (by norm_num) (by norm_num)
  exact_mod_cast h

/-- C3 fails as stated: for a line without its own rate in a draft
whose order level has no rate but another line carries 20% and the
shipping line 5%, the code converts with the other line's 20% while
the claimed precedence (line → order → freight → fallback) demands the
freight rate 5%. -/
theorem c3_precedence_counterexample :
    itemTaxRate 10 draftMixed lineNoRate = some 20 ∧
    specClaimedItemRate 10 draftMixed lineNoRate = some 5 ∧
    itemTaxRate 10 draftMixed lineNoRate ≠ specClaimedItemRate 10 draftMixed lineNoRate := by
  have h1 : itemTaxRate 10 draftMixed lineNoRate = some 20 := by
    simp [itemTaxRate, resolveDefaultInclusiveTaxRate, taxRateFromLines, extractRateFromLines,
      cin7TaxRate, draftMixed, lineNoRate, List.findSome?]
    norm_num
  have h2 : specClaimedItemRate 10 draftMixed lineNoRate = some 5 := by
    simp [specClaimedItemRate, taxRateFromLines, extractRateFromLines, cin7TaxRate,
      draftMixed, lineNoRate, List.findSome?]
    norm_num
  refine ⟨h1, h2, ?_⟩
  rw [h1, h2]
  norm_num

/-- C3 (amended): for every tax-inclusive draft, the rate used to
convert a line's inclusive amount is the line's own rate, else the
order-level rate, else the first rate carried by any line item of the
order, else the freight (shipping-line) rate, else the configured
fallback constant. -/
theorem c3_precedence_amended (fb : ℚ) (draft : Draft) (li : LineItem)
    (h : draft.taxes_included = true) :
    itemTaxRate fb draft li =
      (match taxRateFromLines li.tax_lines with
       | some q => some q
       | none =>
           match taxRateFromLines draft.tax_lines with
           | some q => some q
           | none =>
               match draft.line_items.findSome? (fun it => taxRateFromLines it.tax_lines) with
               | some q => some q
               | none =>
                   match taxRateFromLines (draft.shipping_line.bind ShippingLine.tax_lines) with
                   | some q => some q
                   | none => some fb) := by
  simp only [itemTaxRate, resolveDefaultInclusiveTaxRate, h, Bool.not_true, Bool.false_eq_true,
    if_false, if_true]
  cases hl : taxRateFromLines li.tax_lines with
  | some q => rfl
  | none =>
      cases ho : taxRateFromLines draft.tax_lines with
      | some q => rfl
      | none =>
          cases hli : draft.line_items.findSome? (fun it => taxRateFromLines it.tax_lines) with
          | some q => rfl
          | none =>
              cases hs : taxRateFromLines (draft.shipping_line.bind ShippingLine.tax_lines) with
              | some q => rfl
              | none => rfl

/-- Witness for C3's amended theorem at the mixed-rate draft. -/
theorem c3_precedence_amended_witness :
    itemTaxRate 10 draftMixed lineNoRate =
      (match taxRateFromLines lineNoRate.tax_lines with
       | some q => some q
       | none =>
           match taxRateFromLines draftMixed.tax_lines with
           | some q => some q
           | none =>
               match draftMixed.line_items.findSome? (fun it => taxRateFromLines it.tax_lines) with
               | some q => some q
               | none =>
                   match taxRateFromLines (draftMixed.shipping_line.bind ShippingLine.tax_lines) with
                   | some q => some q
                   | none => some 10) :=
  c3_precedence_amended 10 draftMixed lineNoRate rfl

/-- C4: signature verification fails closed on a missing header,
rejects any claimed signature of the wrong byte length, rejects a body
whose digest differs from the signed one (a flipped body byte, under
the standard assumption that the HMAC digests then differ), and
accepts the exact digest of the original bytes (base64 digests are
nonempty). -/
theorem c4_hmac_verification (digest : List ℕ → List ℕ) (body body' received : List ℕ)
    (hflip : digest body' ≠ digest body) (hne : digest body ≠ []) :
    verifyShopifyHmac digest body none = false ∧
    (received.length ≠ (digest body).length →
      verifyShopifyHmac digest body (some received) = false) ∧
    verifyShopifyHmac digest body' (some (digest body)) = false ∧
    verifyShopifyHmac digest body (some (digest body)) = true := by
  refine ⟨rfl, ?_, ?_, ?_⟩
  · intro hlen
    simp only [verifyShopifyHmac]
    by_cases hemp : received.isEmpty
    · rw [if_pos hemp]
    · rw [if_neg hemp]
      have hne2 : digest body ≠ received := by
        intro hcontra
        exact hlen (by rw [hcontra])
      rw [Bool.eq_false_iff]
      intro htrue
      exact hne2 ((timingSafeEqual_eq_true_iff _ _).mp htrue)
  · simp only [verifyShopifyHmac]
    by_cases hemp : (digest body).isEmpty
    · rw [if_pos hemp]
    · rw [if_neg hemp]
      rw [Bool.eq_false_iff]
      intro htrue
      exact hflip ((timingSafeEqual_eq_true_iff _ _).mp htrue)
  · simp only [verifyShopifyHmac]
    rw [if_neg (by simpa [List.isEmpty_iff] using hne)]
    exact (timingSafeEqual_eq_true_iff _ _).mpr rfl

/-- Witness for C4 with a concrete injective digest function and
concrete bodies. -/
theorem c4_hmac_verification_witness :
    verifyShopifyHmac (fun l => 1 :: l) [0] none = false ∧
    ([5, 5].length ≠ ((fun l => 1 :: l) [0] : List ℕ).length →
      verifyShopifyHmac (fun l => 1 :: l) [0] (some [5, 5]) = false) ∧
    verifyShopifyHmac (fun l => 1 :: l) [7] (some ((fun l => 1 :: l) [0])) = false ∧
    verifyShopifyHmac (fun l => 1 :: l) [0] (some ((fun l => 1 :: l) [0])) = true :=
  c4_hmac_verification (fun l => 1 :: l) [0] [7] [5, 5]
    (by decide) (by decide)

/-- C2: a task failing with HTTP 500 on every attempt is attempted
exactly `maxAttempts` (4) times and the call then rejects with the
last error; a 4xx failure other than 429 is never retried and rejects
immediately with that error. -/
theorem c2_retry_exhaustion (results : ℕ → Except Cin7Err Unit) (jit : ℕ → ℕ)
    (e : ℕ → Cin7Err) (e₀ : Cin7Err) (s : ℤ) :
    ((∀ k, 1 ≤ k → k ≤ 4 → results k = .error (e k)) → (∀ k, (e k).status = some 500) →
      (cin7Request results jit).1 = .error (e 4) ∧ (cin7Request results jit).2.1 = 4) ∧
    (results 1 = .error e₀ → e₀.status = some s → 400 ≤ s → s < 500 → s ≠ 429 →
      cin7Request results jit = (.error e₀, 1, [])) := by
  constructor
  · intro hf hs
    have r1 := hf 1 (by norm_num) (by norm_num)
    have r2 := hf 2 (by norm_num) (by norm_num)
    have r3 := hf 3 (by norm_num) (by norm_num)
    have r4 := hf 4 (by norm_num) (by norm_num)
    have hr : ∀ k, retryableStatus (e k).status = true := by
      intro k; rw [hs k]; decide
    constructor <;>
      simp [cin7Request, cin7Go, r1, r2, r3, r4, hr, maxAttempts]
  · intro h1 hst h4 h5 hn
    have hr : retryableStatus e₀.status = false := by
      rw [hst]
      simp only [retryableStatus, decide_eq_false_iff_not]
      omega
    simp [cin7Request, cin7Go, h1, hr, maxAttempts]

/-- Witness for C2 with all-500 outcomes and a single-400 outcome. -/
theorem c2_retry_exhaustion_witness :
    ((cin7Request (fun _ => .error ⟨some 500, none⟩) (fun _ => 0)).1 =
        .error ⟨some 500, none⟩ ∧
      (cin7Request (fun _ => .error ⟨some 500, none⟩) (fun _ => 0)).2.1 = 4) ∧
    cin7Request (fun _ => .error ⟨some 400, none⟩) (fun _ => 0) =
      (.error ⟨some 400, none⟩, 1, []) :=
  ⟨(c2_retry_exhaustion (fun _ => .error ⟨some 500, none⟩) (fun _ => 0)
      (fun _ => ⟨some 500, none⟩) ⟨some 500, none⟩ 500).1
      (fun _ _ _ => rfl) (fun _ => rfl),
   (c2_retry_exhaustion (fun _ => .error ⟨some 400, none⟩) (fun _ => 0)
      (fun _ => ⟨some 400, none⟩) ⟨some 400, none⟩ 400).2
      rfl rfl (by norm_num) (by norm_num) (by norm_num)⟩

/-- C8: before attempt `k + 1`, a retryable failure with a numeric
`Retry-After` of `S` seconds sleeps exactly `S * 1000` ms, and one
without the header sleeps `min 5000 (500 * k + jitter)` ms with
`0 ≤ jitter < 250`. -/
theorem c8_backoff_delay (results : ℕ → Except Cin7Err Unit) (jit : ℕ → ℕ) (e : ℕ → Cin7Err)
    (k : ℕ) (hk1 : 1 ≤ k) (hk3 : k ≤ 3)
    (hf : ∀ j, 1 ≤ j → j ≤ k → results j = .error (e j) ∧ retryableStatus (e j).status = true)
    (hjit : ∀ j, jit j < 250) :
    (cin7Request results jit).2.2.get? (k - 1) =
      some (match (e k).retryAfterSec with
            | some S => S * 1000
            | none => min 5000 (500 * (k : ℚ) + (jit k : ℚ))) ∧
    (0 : ℚ) ≤ (jit k : ℚ) ∧ (jit k : ℚ) < 250 := by
  refine ⟨?_, by positivity, by exact_mod_cast hjit k⟩
  interval_cases k
  · obtain ⟨r1, rs1⟩ := hf 1 (by norm_num) (by norm_num)
    obtain ⟨rest, hrest⟩ := cin7Go_sleeps_extends results jit 3 1 [backoffMs (e 1) 1 (jit 1)]
    have hstep : cin7Request results jit = cin7Go results jit 3 1 [backoffMs (e 1) 1 (jit 1)] := by
      simp [cin7Request, cin7Go, r1, rs1, maxAttempts]
    rw [hstep, hrest]
    simp [backoffMs]
  · obtain ⟨r1, rs1⟩ := hf 1 (by norm_num) (by norm_num)
    obtain ⟨r2, rs2⟩ := hf 2 (by norm_num) (by norm_num)
    obtain ⟨rest, hrest⟩ := cin7Go_sleeps_extends results jit 2 2
      [backoffMs (e 1) 1 (jit 1), backoffMs (e 2) 2 (jit 2)]
    have hstep : cin7Request results jit =
        cin7Go results jit 2 2 [backoffMs (e 1) 1 (jit 1), backoffMs (e 2) 2 (jit 2)] := by
      simp [cin7Request, cin7Go, r1, rs1, r2, rs2, maxAttempts]
    rw [hstep, hrest]
    simp [backoffMs]
  · obtain ⟨r1, rs1⟩ := hf 1 (by norm_num) (by norm_num)
    obtain ⟨r2, rs2⟩ := hf 2 (by norm_num) (by norm_num)
    obtain ⟨r3, rs3⟩ := hf 3 (by norm_num) (by norm_num)
    obtain ⟨rest, hrest⟩ := cin7Go_sleeps_extends results jit 1 3
      [backoffMs (e 1) 1 (jit 1), backoffMs (e 2) 2 (jit 2), backoffMs (e 3) 3 (jit 3)]
    have hstep : cin7Request results jit =
        cin7Go results jit 1 3
          [backoffMs (e 1) 1 (jit 1), backoffMs (e 2) 2 (jit 2), backoffMs (e 3) 3 (jit 3)] := by
      simp [cin7Request, cin7Go, r1, rs1, r2, rs2, r3, rs3, maxAttempts]
    rw [hstep, hrest]
    simp [backoffMs]

/-- Witness for C8: a 429 with `Retry-After: 2` sleeps exactly 2000ms
before the second attempt. -/
theorem c8_backoff_delay_witness :
    (cin7Request (fun _ => .error ⟨some 429, some 2⟩) (fun _ => 0)).2.2.get? 0 =
      some (match (⟨some 429, some 2⟩ : Cin7Err).retryAfterSec with
            | some S => S * 1000
            | none => min 5000 (500 * ((1 : ℕ) : ℚ) + ((0 : ℕ) : ℚ))) ∧
    (0 : ℚ) ≤ (((fun _ => 0 : ℕ → ℕ) 1 : ℕ) : ℚ) ∧
      ((((fun _ => 0 : ℕ → ℕ) 1 : ℕ)) : ℚ) < 250 :=
  c8_backoff_delay (fun _ => .error ⟨some 429, some 2⟩) (fun _ => 0)
    (fun _ => ⟨some 429, some 2⟩) 1 (by norm_num) (by norm_num)
    (fun _ _ _ => ⟨rfl, by norm_num [retryableStatus]⟩) (fun _ => by norm_num)

/-- C9 fails as stated: a verified draft carrying the required tag but
no resolvable email passes the tag gate yet issues zero downstream
requests, contradicting "drafts carrying the tag proceed to mapping
and dispatch". -/
theorem c9_tagged_no_dispatch_counterexample :
    draftHasTag draftTagNoEmail REQUIRED_DRAFT_TAG = true ∧
    handlerAfterVerify 10 draftTagNoEmail false = (200, []) := by
  constructor <;> decide

/-- C9 (amended): a verified draft whose tags do not contain the
required tag (case-insensitively, after trimming) gets a 200 response
and zero downstream requests; a draft carrying the tag proceeds to
mapping and, provided an email resolves, to the two downstream
dispatches. -/
theorem c9_tag_gate_amended (fb : ℚ) (draft : Draft) (p : Bool) :
    (draftHasTag draft REQUIRED_DRAFT_TAG = false →
      handlerAfterVerify fb draft p = (200, [])) ∧
    (draftHasTag draft REQUIRED_DRAFT_TAG = true →
      (mapDraftOrderToCin7Quote fb draft).memberEmail.isSome = true →
      (handlerAfterVerify fb draft p).2 = ["contact-lookup", "create-quote"]) := by
  constructor
  · intro h
    simp [handlerAfterVerify, h]
  · intro h he
    cases hm : (mapDraftOrderToCin7Quote fb draft).memberEmail with
    | none => rw [hm] at he; simp at he
    | some v => simp [handlerAfterVerify, h, hm]

/-- Witness for C9's amended theorem: an untagged draft is skipped, a
tagged draft with an email dispatches. -/
theorem c9_tag_gate_amended_witness :
    handlerAfterVerify 10 draftNoTag false = (200, []) ∧
    (handlerAfterVerify 10 draft110 false).2 = ["contact-lookup", "create-quote"] :=
  ⟨(c9_tag_gate_amended 10 draftNoTag false).1 (by decide),
   (c9_tag_gate_amended 10 draft110 false).2 (by decide) (by decide)⟩

/-- C7 fails as stated: a tagged draft missing both the top-level
email and the customer email, but carrying a billing-address email,
still issues the two downstream requests (the source also consults
`bill.email` and `ship.email`). -/
theorem c7_missing_email_counterexample :
    draftBillEmail.email = none ∧
    draftBillEmail.customer = none ∧
    (handlerAfterVerify 10 draftBillEmail false).2 = ["contact-lookup", "create-quote"] ∧
    (handlerAfterVerify 10 draftBillEmail false).2 ≠ [] := by
  refine ⟨rfl, rfl, ?_, ?_⟩ <;> decide

/-- C7 (amended): when no email resolves from any of the four sources
the code consults — top-level, customer, billing address, shipping
address — the handler responds 200 and issues zero downstream
requests. -/
theorem c7_email_skip_amended (fb : ℚ) (draft : Draft) (p : Bool)
    (h1 : truthyStr draft.email = false)
    (h2 : truthyStr (draft.customer.getD {}).email = false)
    (h3 : truthyStr (draft.billing_address.getD {}).email = false)
    (h4 : truthyStr (draft.shipping_address.getD {}).email = false) :
    handlerAfterVerify fb draft p = (200, []) := by
  have hm : (mapDraftOrderToCin7Quote fb draft).memberEmail = none := by
    simp [mapDraftOrderToCin7Quote, jsOrStr, h1, h2, h3, h4]
  by_cases ht : draftHasTag draft REQUIRED_DRAFT_TAG = true
  · simp [handlerAfterVerify, ht, hm]
  · simp [handlerAfterVerify, ht]

/-- Witness for C7's amended theorem at the tagged email-less draft. -/
theorem c7_email_skip_amended_witness :
    handlerAfterVerify 10 draftTagNoEmail true = (200, []) :=
  c7_email_skip_amended 10 draftTagNoEmail true rfl rfl rfl rfl


/-- C1: from any initial queue, every state reachable through the
dispatch loop — under arbitrary enqueue bursts, waits, and clock
advances, with the delay re-evaluated at the instant of every
dispatch — has at most 3 dispatch timestamps in any trailing 1-second
window and at most 60 in any trailing 60-second window. -/
theorem c1_rate_limit_invariant (q0 : ℕ) (t0 : ℤ) (s : QState)
    (hreach : Relation.ReflTransGen QStep (initQState q0 t0) s) (T : ℤ) :
    winCount s.history T 1000 ≤ perSecondLimit ∧
    winCount s.history T 60000 ≤ perMinuteLimit := by
  have hinv : QInv s := by
    induction hreach with
    | refl => exact QInv_init q0 t0
    | tail _ hstep ih => exact QInv_step ih hstep
  exact hinv.2.2 T

/-- Witness for C1 at a concrete one-dispatch trace. -/
theorem c1_rate_limit_invariant_witness :
    winCount (QState.mk [0] [0] 0 0).history 0 1000 ≤ perSecondLimit ∧
    winCount (QState.mk [0] [0] 0 0).history 0 60000 ≤ perMinuteLimit :=
  c1_rate_limit_invariant 1 0 ⟨[0], [0], 0, 0⟩
    (Relation.ReflTransGen.tail Relation.ReflTransGen.refl
      (QStep.dispatch (initQState 1 0) (by decide) (by decide)))
    0

end Cin7Spec

